import Mathlib

/-!
Verification of the crawl/pagination core of the Independent-Study news
scraping repository.  The definitions below are shallow embeddings, in Lean,
of the Python driver loops and helper functions in
`ScrapingNewsSources/ScrapingScripts/` and `ScrapingNewsSources/scrape_article.py`.
Network transports are modelled as explicit traces (lists of fetch outcomes),
consumed one element per fetch, so that each driver loop becomes a total
function from a trace and a session state to a terminal result.
-/

namespace SpecProof

/-- Python truthiness of an optional string value: `None` and the empty
string are falsy, every other string is truthy.  Used to embed checks such
as `if all(article.values())` and `if not new_page_handle` over string
fields. -/
def strTruthy : Option String → Bool
  | none => false
  | some s => !s.isEmpty

/-- Terminal kind of a crawl of one source: the loop broke because the
source was exhausted, the loop broke on the failure path, or the modelled
transport trace ran out before the loop finished. -/
inductive TKind where
  | exhausted
  | failed
  | outOfTrace
deriving DecidableEq

/-! ## the_city.py (cursor-token pagination, WordPress `page_handle`) -/

/-- The fields of one element of the results list that
`the_city.process_data` reads from the fields dict of a result: the date,
the default title and the raw permalink URL (each possibly absent,
i.e. `None`). -/
structure TCItem where
  date : Option String
  title : Option String
  link : Option String
deriving DecidableEq

/-- The parts of a decoded the_city response that `main` and `process_data`
read: the optional results list (`none` when the key is absent) and the
optional continuation token `page_handle`. -/
structure TCData where
  results : Option (List TCItem)
  page_handle : Option String
deriving DecidableEq

/-- `the_city.process_data`: for each result build the
date/title/link record and keep it only when the Python check
`all(article.values())` holds, i.e. every field is a truthy (non-`None`,
non-empty) string.  When the results key is absent no record is
produced. -/
def tcProcessData (d : TCData) : List TCItem :=
  match d.results with
  | none => []
  | some rs => rs.filterMap fun r =>
      if strTruthy r.date && strTruthy r.title && strTruthy r.link
      then some r else none

/-- Mutable state of the cursor-token driver loops of `the_city.main` and
`news_day.main`: accumulated records, the current continuation token
(`page_handle` resp. `cursor`, `none` before the first page), and the
consecutive-failure counter `retry_count`. -/
structure CState (α : Type) where
  arts : List α
  handle : Option String
  retry : Nat
deriving DecidableEq

/-- Result of running a cursor-token driver loop to its end: terminal kind,
the record list passed to `save_data`, and the number of fetches issued. -/
structure CResult (α : Type) where
  kind : TKind
  arts : List α
  fetches : Nat
deriving DecidableEq

/-- The `while True` loop shared verbatim by `the_city.main` and
`news_day.main`, parameterized by the page-processing function and the
continuation-field accessor.  A trace element `none` stands for a fetch
whose result was falsy (`if not data:` — transport failure or empty
payload); `some d` stands for a truthy decoded payload `d`.  On failure:
if `retry_count < max_retries` sleep and retry the same token, else break
(failed).  On success: extend the accumulated records with the processed
page, read the new continuation value, and break (exhausted) when it is
falsy or equal to the token that requested this page; otherwise adopt it
and reset the failure counter. -/
def cursorRun (process : δ → List α) (contOf : δ → Option String)
    (maxRetries : Nat) : List (Option δ) → CState α → CResult α
  | [], s => ⟨.outOfTrace, s.arts, 0⟩
  | none :: rest, s =>
      if s.retry < maxRetries then
        let r := cursorRun process contOf maxRetries rest
          { s with retry := s.retry + 1 }
        { r with fetches := r.fetches + 1 }
      else ⟨.failed, s.arts, 1⟩
  | some d :: rest, s =>
      let arts2 := s.arts ++ process d
      let nh := contOf d
      if ¬ strTruthy nh ∨ nh = s.handle then ⟨.exhausted, arts2, 1⟩
      else
        let r := cursorRun process contOf maxRetries rest
          ⟨arts2, nh, 0⟩
        { r with fetches := r.fetches + 1 }

/-- The driver loop of `the_city.main` (`max_retries = 3` in the source). -/
def tcRun : List (Option TCData) → CState TCItem → CResult TCItem :=
  cursorRun tcProcessData (fun d => d.page_handle) 3

/-! ## news_day.py (cursor-token pagination, Algolia `cursor`) -/

/-- The fields of one element of the hits list that
`news_day.process_data` reads. -/
structure NDHit where
  publishedDate : Option String
  headline : Option String
  title : Option String
  url : Option String
  body : Option String
deriving DecidableEq

/-- The record built by `news_day.process_data` for one hit. -/
structure NDArticle where
  date : Option String
  title : Option String
  link : Option String
  text : Option String
deriving DecidableEq

/-- The parts of a decoded news_day response that `main` and `process_data`
read: the optional `hits` list and the optional `cursor` token. -/
structure NDData where
  hits : Option (List NDHit)
  cursor : Option String
deriving DecidableEq

/-- `news_day.process_data`: the title is the Python expression
headline-or-title of the hit (the headline when truthy, otherwise the
title), and the record is kept only when `all(article.values())` holds
for its four fields. -/
def ndProcessData (d : NDData) : List NDArticle :=
  match d.hits with
  | none => []
  | some hs => hs.filterMap fun h =>
      let t := if strTruthy h.headline then h.headline else h.title
      let a : NDArticle := ⟨h.publishedDate, t, h.url, h.body⟩
      if strTruthy a.date && strTruthy a.title && strTruthy a.link &&
          strTruthy a.text
      then some a else none

/-- The driver loop of `news_day.main` (`max_retries = 3` in the source). -/
def ndRun : List (Option NDData) → CState NDArticle → CResult NDArticle :=
  cursorRun ndProcessData (fun d => d.cursor) 3

/-! ## bx_times.py and chicago_tribune.py (page-number pagination) -/

/-- Mutable state of the page-number driver loops of `bx_times.main` and
`chicago_tribune.main`: accumulated records, the current page number, and
the consecutive-failure counter `retry_count`. -/
structure PState (α : Type) where
  arts : List α
  page : Nat
  retry : Nat
deriving DecidableEq

/-- Result of running a page-number driver loop: terminal kind, the record
list passed to `save_results`, the sequence of page numbers passed to
`fetch_page` (one entry per fetch, in order), and the fetch count. -/
structure PResult (α : Type) where
  kind : TKind
  arts : List α
  pages : List Nat
  fetches : Nat
deriving DecidableEq

/-- The `while page <= max_pages` loop shared by `bx_times.main` and
`chicago_tribune.main`.  A trace element `none` stands for a fetch where
`fetch_page` returned `None`; `some as` stands for an HTML page on which
`parse_articles` yields the record list `as` (the loop only inspects the
parsed list, so pages are modelled by their parsed articles).  Exceeding
the page cap or meeting an empty page breaks the loop as exhausted;
exceeding `max_retries` consecutive failures breaks it as failed;
otherwise a successful page extends the records, increments the page
number and resets the failure counter. -/
def pageRun (maxPages maxRetries : Nat) :
    List (Option (List α)) → PState α → PResult α
  | [], s =>
      if s.page > maxPages then ⟨.exhausted, s.arts, [], 0⟩
      else ⟨.outOfTrace, s.arts, [], 0⟩
  | o :: rest, s =>
      if s.page > maxPages then ⟨.exhausted, s.arts, [], 0⟩
      else
        match o with
        | none =>
            if s.retry < maxRetries then
              let r := pageRun maxPages maxRetries rest
                { s with retry := s.retry + 1 }
              { r with pages := s.page :: r.pages, fetches := r.fetches + 1 }
            else ⟨.failed, s.arts, [s.page], 1⟩
        | some as =>
            if as.isEmpty then ⟨.exhausted, s.arts, [s.page], 1⟩
            else
              let r := pageRun maxPages maxRetries rest
                ⟨s.arts ++ as, s.page + 1, 0⟩
              { r with pages := s.page :: r.pages, fetches := r.fetches + 1 }

/-- The page numbers fetched over the whole crawl of
`chicago_tribune.main`: one pre-loop probe fetch of page 1 whose parsed
result count (abstracted, like page contents, to the parsed value) sets
the page cap — total falsy or unparsed falls back to 1000, then ceiling
division by the 10 results per page — followed by the driver loop
starting at page 1.  `probe = none` models a failed initial fetch, after
which the function logs and returns without entering the loop. -/
def tribuneCrawlPages (probe : Option (Option Nat))
    (trace : List (Option (List α))) : List Nat :=
  match probe with
  | none => [1]
  | some tr =>
      let total := match tr with
        | some t => if t = 0 then 1000 else t
        | none => 1000
      let mp := (total + 10 - 1) / 10
      1 :: (pageRun mp 3 trace ⟨[], 1, 0⟩).pages

/-- The page numbers fetched over the whole crawl of `bx_times.main`: one
pre-loop probe fetch of page 2 whose parsed page count (falsy or
unparsed falls back to 150) becomes the cap, followed by the driver loop
starting at page 1. -/
def bxCrawlPages (probe : Option (Option Nat))
    (trace : List (Option (List α))) : List Nat :=
  match probe with
  | none => [2]
  | some tr =>
      let mp := match tr with
        | some t => if t = 0 then 150 else t
        | none => 150
      2 :: (pageRun mp 3 trace ⟨[], 1, 0⟩).pages

/-! ## silive.py (offset pagination, defensive JSON decoding) -/

/-- Decoded JSON values (the Python values silive manipulates).  Numbers
are modelled as integers: the payloads inspected by the logic of this
scraper (item fields, the running total) are integral, and no claim
exercises fractional or exponent numerals, so the parser below rejects
them rather than approximating floats.  Python `None` inside data is
`null`; objects are key-ordered association lists with unique keys (as
Python dicts). -/
inductive Json where
  | null
  | bool (b : Bool)
  | num (n : Int)
  | str (s : String)
  | arr (xs : List Json)
  | obj (fields : List (String × Json))

/-- Python truthiness of a decoded value (`if not data:` etc.). -/
def pyTruthy : Json → Bool
  | .null => false
  | .bool b => b
  | .num n => n != 0
  | .str s => !s.isEmpty
  | .arr xs => !xs.isEmpty
  | .obj fs => !fs.isEmpty

/-- Python truthiness of an optional decoded value (`None` is falsy). -/
def pyTruthyOpt : Option Json → Bool
  | none => false
  | some v => pyTruthy v

/-- Dictionary lookup (`d[k]` / `d.get(k)` on the decoded object). -/
def jlookup (k : String) : List (String × Json) → Option Json
  | [] => none
  | kv :: rest => if kv.1 = k then some kv.2 else jlookup k rest

/-- Decimal value of a character per the Unicode decimal-digit (Nd)
property, as used by Python int conversion.  The table covers the Nd
ranges exercised here — ASCII, Arabic-Indic, Extended Arabic-Indic,
Devanagari and fullwidth digits; the remaining Nd ranges behave
identically and are omitted from the table. -/
def pyCharDecimalVal (c : Char) : Option Nat :=
  if 48 ≤ c.toNat ∧ c.toNat ≤ 57 then some (c.toNat - 48)
  else if 1632 ≤ c.toNat ∧ c.toNat ≤ 1641 then some (c.toNat - 1632)
  else if 1776 ≤ c.toNat ∧ c.toNat ≤ 1785 then some (c.toNat - 1776)
  else if 2406 ≤ c.toNat ∧ c.toNat ≤ 2415 then some (c.toNat - 2406)
  else if 65296 ≤ c.toNat ∧ c.toNat ≤ 65305 then some (c.toNat - 65296)
  else none

/-- One character of the Python str.isdigit class: the decimal digits of
`pyCharDecimalVal` plus the digit-valued characters that carry no
decimal value — the superscript digits (code points 178, 179, 185, 8304
and 8308 to 8313) and the subscript digits (8320 to 8329) — on which
Python int conversion raises a ValueError. -/
def pyCharIsDigit (c : Char) : Bool :=
  (pyCharDecimalVal c).isSome ||
  c.toNat = 178 || c.toNat = 179 || c.toNat = 185 || c.toNat = 8304 ||
  (8308 ≤ c.toNat && c.toNat ≤ 8313) || (8320 ≤ c.toNat && c.toNat ≤ 8329)

/-- Python str.isdigit for the key strings fed to `get_nested_value`:
non-empty and all characters in the digit class.  Note this class is
strictly larger than what Python int conversion accepts. -/
def isdigitStr (s : String) : Bool := !s.isEmpty && s.data.all pyCharIsDigit

/-- Python int conversion of a digit-class key: succeeds (with the base-10
fold of the decimal values) iff every character has a decimal value;
`none` models the ValueError raised on digit-class characters without one,
such as a superscript digit. -/
def intOfKey (s : String) : Option Nat :=
  if s.data.all (fun c => (pyCharDecimalVal c).isSome) then
    some (s.data.foldl (fun a c => a * 10 + (pyCharDecimalVal c).getD 0) 0)
  else none

/-- Python path splitting on the dot character: cut at every dot; the
empty path yields one empty key, as in Python. -/
def splitDot : List Char → List Char → List String
  | acc, [] => [String.mk acc.reverse]
  | acc, c :: cs =>
      if c = '.' then String.mk acc.reverse :: splitDot [] cs
      else splitDot (c :: acc) cs

/-- The key-walking loop of `SiLive.get_nested_value`: for each key,
descend with `current.get(key)` when `current` is a dict, with a bounds
checked index when it is a list and the key passes str.isdigit, and
otherwise return `None`; whenever the fetched value is `None` (missing
key, out-of-range index, or an explicit `null` in the data) the loop
breaks and `None` is returned.  `Except.error` is the ValueError raised
by the int conversion of a digit-class key without decimal value (the
source guards the index with str.isdigit, which accepts more than int
does), propagated to the caller. -/
def getNested : List String → Json → Except Unit (Option Json)
  | [], cur => .ok (some cur)
  | k :: ks, cur =>
      match cur with
      | .obj fields =>
          match jlookup k fields with
          | none => .ok none
          | some .null => .ok none
          | some v => getNested ks v
      | .arr xs =>
          if isdigitStr k then
            match intOfKey k with
            | none => .error ()
            | some i =>
                match xs[i]? with
                | none => .ok none
                | some .null => .ok none
                | some v => getNested ks v
          else .ok none
      | _ => .ok none

/-- `SiLive.get_nested_value(item, path)`: split the path on dots and walk
the keys.  An `ok none` result is Python `None`; an error is a raised
ValueError. -/
def get_nested_value (item : Json) (path : String) :
    Except Unit (Option Json) :=
  getNested (splitDot [] path.data) item

/-- The four JSON whitespace characters skipped by `json.loads`. -/
def skipWs : List Char → List Char
  | [] => []
  | c :: cs =>
      if c = ' ' ∨ c = '\t' ∨ c = '\n' ∨ c = '\r' then skipWs cs
      else c :: cs

/-- Value of one hexadecimal digit (for `\uXXXX` string escapes). -/
def hexVal (c : Char) : Option Nat :=
  if '0' ≤ c ∧ c ≤ '9' then some (c.toNat - 48)
  else if 'a' ≤ c ∧ c ≤ 'f' then some (c.toNat - 87)
  else if 'A' ≤ c ∧ c ≤ 'F' then some (c.toNat - 55)
  else none

/-- JSON string-literal body parser (after the opening quote): handles the
escape sequences of the JSON grammar; in strict mode (Python
`json.loads` default) a raw control character inside the string is an
error, with `strict=False` it is accepted literally.  `\uXXXX` escapes of
surrogate code points are rejected (Lean characters are scalars; no claim
exercises them). -/
def parseJStringAux (strict : Bool) : List Char → List Char →
    Option (String × List Char)
  | _, [] => none
  | acc, c :: cs =>
      if c = '"' then some (String.mk acc.reverse, cs)
      else if c = '\\' then
        match cs with
        | [] => none
        | e :: cs2 =>
          if e = '"' then parseJStringAux strict ('"' :: acc) cs2
          else if e = '\\' then parseJStringAux strict ('\\' :: acc) cs2
          else if e = '/' then parseJStringAux strict ('/' :: acc) cs2
          else if e = 'b' then parseJStringAux strict (Char.ofNat 8 :: acc) cs2
          else if e = 'f' then parseJStringAux strict (Char.ofNat 12 :: acc) cs2
          else if e = 'n' then parseJStringAux strict ('\n' :: acc) cs2
          else if e = 'r' then parseJStringAux strict ('\r' :: acc) cs2
          else if e = 't' then parseJStringAux strict ('\t' :: acc) cs2
          else if e = 'u' then
            match cs2 with
            | h1 :: h2 :: h3 :: h4 :: cs3 =>
              match hexVal h1, hexVal h2, hexVal h3, hexVal h4 with
              | some a, some b, some c2, some d =>
                let n := ((a * 16 + b) * 16 + c2) * 16 + d
                if n < 55296 ∨ 57343 < n then
                  parseJStringAux strict (Char.ofNat n :: acc) cs3
                else none
              | _, _, _, _ => none
            | _ => none
          else none
      else if strict && c.toNat < 32 then none
      else parseJStringAux strict (c :: acc) cs

/-- Longest leading run of ASCII digits. -/
def takeDigits : List Char → List Char × List Char
  | [] => ([], [])
  | c :: cs =>
      if c.isDigit then
        let p := takeDigits cs
        (c :: p.1, p.2)
      else ([], c :: cs)

/-- Numeric value of a digit run. -/
def digitsVal (ds : List Char) : Nat :=
  ds.foldl (fun a c => a * 10 + (c.toNat - 48)) 0

/-- The integer part of the JSON number grammar
(`0` alone, or a nonzero digit followed by digits — JSON forbids leading
zeros, so a literal starting with `0` is the number 0 and anything after
it is left as trailing input). -/
def parseNumToken : List Char → Option (Nat × List Char)
  | [] => none
  | c :: cs =>
      if c = '0' then some (0, cs)
      else if c.isDigit then
        let p := takeDigits cs
        some (digitsVal (c :: p.1), p.2)
      else none

/-- Python-dict insertion used while parsing object members: a repeated
key overwrites the earlier value in place (later member wins, position of
the first occurrence kept), as `json.loads` does. -/
def objInsert (k : String) (v : Json) (fields : List (String × Json)) :
    List (String × Json) :=
  if fields.any (fun kv => kv.1 = k) then
    fields.map (fun kv => if kv.1 = k then (k, v) else kv)
  else fields ++ [(k, v)]

mutual

/-- Recursive-descent JSON value parser modelling Python `json.loads`
(integer numbers only, see `Json`): parses one value and returns the
remaining input.  The fuel argument only bounds recursion depth; callers
pass more than the input length. -/
def parseVal (strict : Bool) : Nat → List Char → Option (Json × List Char)
  | 0, _ => none
  | fuel + 1, cs =>
      match skipWs cs with
      | [] => none
      | c :: cs1 =>
        if c = '{' then
          match skipWs cs1 with
          | '}' :: cs2 => some (.obj [], cs2)
          | cs2 => parseMembers strict fuel cs2 []
        else if c = '[' then
          match skipWs cs1 with
          | ']' :: cs2 => some (.arr [], cs2)
          | cs2 => parseItems strict fuel cs2 []
        else if c = '"' then
          match parseJStringAux strict [] cs1 with
          | none => none
          | some (s, r) => some (.str s, r)
        else if c = 't' then
          match cs1 with
          | 'r' :: 'u' :: 'e' :: r => some (.bool true, r)
          | _ => none
        else if c = 'f' then
          match cs1 with
          | 'a' :: 'l' :: 's' :: 'e' :: r => some (.bool false, r)
          | _ => none
        else if c = 'n' then
          match cs1 with
          | 'u' :: 'l' :: 'l' :: r => some (.null, r)
          | _ => none
        else if c = '-' then
          match parseNumToken cs1 with
          | none => none
          | some (n, r) => some (.num (-(n : Int)), r)
        else
          match parseNumToken (c :: cs1) with
          | none => none
          | some (n, r) => some (.num (n : Int), r)

/-- Object-member loop of the JSON parser (after `{` and at least one
member): key string, colon, value, then comma (next member) or `}`. -/
def parseMembers (strict : Bool) : Nat → List Char → List (String × Json) →
    Option (Json × List Char)
  | 0, _, _ => none
  | fuel + 1, cs, acc =>
      match skipWs cs with
      | '"' :: cs1 =>
        match parseJStringAux strict [] cs1 with
        | none => none
        | some (k, cs2) =>
          match skipWs cs2 with
          | ':' :: cs3 =>
            match parseVal strict fuel cs3 with
            | none => none
            | some (v, cs4) =>
              match skipWs cs4 with
              | ',' :: cs5 => parseMembers strict fuel cs5 (objInsert k v acc)
              | '}' :: cs5 => some (.obj (objInsert k v acc), cs5)
              | _ => none
          | _ => none
      | _ => none

/-- Array-item loop of the JSON parser (after `[` and at least one item):
value, then comma (next item) or `]`. -/
def parseItems (strict : Bool) : Nat → List Char → List Json →
    Option (Json × List Char)
  | 0, _, _ => none
  | fuel + 1, cs, acc =>
      match parseVal strict fuel cs with
      | none => none
      | some (v, cs1) =>
        match skipWs cs1 with
        | ',' :: cs2 => parseItems strict fuel cs2 (v :: acc)
        | ']' :: cs2 => some (.arr (v :: acc).reverse, cs2)
        | _ => none

end

/-- Python `json.loads(text, strict=...)`: parse one JSON value and
require only whitespace after it. -/
def json_loads (strict : Bool) (text : String) : Option Json :=
  match parseVal strict (2 * text.length + 4) text.data with
  | none => none
  | some (v, rest) => if skipWs rest = [] then some v else none

/-- A single or double quote character (the quote character class of the
embedded-script pattern). -/
def isJQuote (c : Char) : Bool := c = '"' || c = Char.ofNat 39

/-- The non-greedy group of the embedded-script pattern of silive: scan
forward (DOTALL, so across any character) for the first position holding
a quote immediately followed by a closing parenthesis; the characters
before it are the inner group. -/
def findInner : List Char → List Char → Option (List Char)
  | _, [] => none
  | _, [_] => none
  | acc, c :: c2 :: rest =>
      if isJQuote c ∧ c2 = ')' then some acc.reverse
      else findInner (c :: acc) (c2 :: rest)

/-- The `re.search` of the silive embedded-script pattern (the literal
text JSON.parse followed by an opening parenthesis and a quote, a
non-greedy dot-all group, then a quote and a closing parenthesis): try
every start position left to right; a match needs the literal prefix, an
opening quote, and somewhere after it a quote directly followed by a
closing parenthesis; the first start position admitting a match wins and
the shortest inner group is taken (non-greedy).  Returns group 1. -/
def searchJsonParse : List Char → Option String
  | [] => none
  | c :: cs =>
      if (c :: cs).take 11 = "JSON.parse(".data then
        match (c :: cs).drop 11 with
        | q :: rest =>
            if isJQuote q then
              match findInner [] rest with
              | some inner => some (String.mk inner)
              | none => searchJsonParse cs
            else searchJsonParse cs
        | [] => searchJsonParse cs
      else searchJsonParse cs

/-- Python `str.replace(pat, rep)`: one left-to-right pass replacing
non-overlapping occurrences; the output is not rescanned.  (An empty
pattern never occurs in this code base; it is treated as no match.)  The
fuel argument makes the recursion structural; every step consumes at
least one character, so fuel equal to the input length always suffices. -/
def replaceScan (pat rep : List Char) : Nat → List Char → List Char
  | 0, l => l
  | _, [] => []
  | fuel + 1, c :: cs =>
      if pat ≠ [] ∧ (c :: cs).take pat.length = pat then
        rep ++ replaceScan pat rep fuel ((c :: cs).drop pat.length)
      else c :: replaceScan pat rep fuel cs

/-- Python `str.replace` on strings. -/
def pyReplace (s pat rep : String) : String :=
  String.mk (replaceScan pat.data rep.data s.data.length s.data)

/-- The un-escaping step of `SiLive.parse_response`: two chained replace
calls — first every backslash-single-quote pair becomes a bare single
quote, then every backslash-backslash-double-quote triple becomes a
backslash-double-quote pair. -/
def siUnescape (s : String) : String :=
  pyReplace (pyReplace s ("\\" ++ "\x27") "\x27") "\\\\\"" "\\\""

/-- `SiLive.parse_response`: attempt a direct strict `json.loads`; on
failure, and only for the `silive` source, search for the embedded-script
pattern, un-escape the inner string literal, and parse it with
`strict=False`; if the pattern is absent (or the recovery parse fails,
which the source logs to the debug parse-failure log) the result is
`None`. -/
def parse_response (cfgName : String) (text : String) : Option Json :=
  match json_loads true text with
  | some v => some v
  | none =>
      if cfgName = "silive" then
        match searchJsonParse text.data with
        | none => none
        | some inner => json_loads false (siUnescape inner)
      else none

/-- Single pass of the regex substitution deleting mark tags: at each
position remove an opening or closing mark-tag occurrence (first
alternative preferred) or keep the character.  Fuel equal to the input length always
suffices (every step consumes at least one character). -/
def stripMarksAux : Nat → List Char → List Char
  | 0, l => l
  | _, [] => []
  | fuel + 1, c :: cs =>
      if (c :: cs).take 6 = "<mark>".data then
        stripMarksAux fuel ((c :: cs).drop 6)
      else if (c :: cs).take 7 = "</mark>".data then
        stripMarksAux fuel ((c :: cs).drop 7)
      else c :: stripMarksAux fuel cs

/-- The mark-tag-deleting regex substitution, on strings. -/
def stripMarks (s : String) : String :=
  String.mk (stripMarksAux s.data.length s.data)

/-- Python join of a list of strings with a single-space separator. -/
def joinSpace : List String → String
  | [] => ""
  | [x] => x
  | x :: y :: rest => x ++ " " ++ joinSpace (y :: rest)

mutual

/-- Python str of a decoded value, as used by the space-join over a
list-valued field in `SiLive.process_item`.  Strings render bare at top
level; inside containers Python uses repr, approximated here by
single-quoting strings (Python switches quote style when the string
itself contains a quote; no claim exercises that corner). -/
def pyStr : Json → String
  | .null => "None"
  | .bool true => "True"
  | .bool false => "False"
  | .num n => toString n
  | .str s => s
  | .arr xs => "[" ++ pyReprList xs ++ "]"
  | .obj fs => "\x7b" ++ pyReprFields fs ++ "\x7d"

/-- Python repr of a decoded value (see `pyStr`). -/
def pyRepr : Json → String
  | .null => "None"
  | .bool true => "True"
  | .bool false => "False"
  | .num n => toString n
  | .str s => "\x27" ++ s ++ "\x27"
  | .arr xs => "[" ++ pyReprList xs ++ "]"
  | .obj fs => "\x7b" ++ pyReprFields fs ++ "\x7d"

/-- Comma-separated reprs of list elements. -/
def pyReprList : List Json → String
  | [] => ""
  | [x] => pyRepr x
  | x :: y :: rest => pyRepr x ++ ", " ++ pyReprList (y :: rest)

/-- Comma-separated `key: value` reprs of dict fields. -/
def pyReprFields : List (String × Json) → String
  | [] => ""
  | [kv] => "\x27" ++ kv.1 ++ "\x27: " ++ pyRepr kv.2
  | kv :: kv2 :: rest =>
      "\x27" ++ kv.1 ++ "\x27: " ++ pyRepr kv.2 ++ ", " ++
        pyReprFields (kv2 :: rest)

end

/-- A processed silive record: the output dict of `process_item`, in
field order, each field holding a value or Python `None`. -/
abbrev SiRecord := List (String × Option Json)

/-- The description-list branch of `SiLive.process_item`: space-join of
the mark-stripped elements; a non-string element makes the regex
substitution raise a type error, modelled as `Except.error`. -/
def descJoin (xs : List Json) : Except Unit (Option Json) :=
  if xs.all (fun v => match v with | .str _ => true | _ => false) then
    .ok (some (.str (joinSpace (xs.map (fun v =>
      match v with | .str s => stripMarks s | _ => "")))))
  else .error ()

/-- The URL fix-up of `SiLive.process_item`: a truthy link value is
prefixed with the https scheme after stripping leading characters from
the two-character set holding w and the dot (Python lstrip semantics); a
truthy non-string value has no lstrip method and raises an attribute
error. -/
def linkFix (st : Option Json) : Except Unit (Option Json) :=
  if pyTruthyOpt st then
    match st with
    | some (.str s) =>
        .ok (some (.str ("https://" ++
          String.mk (s.data.dropWhile (fun ch => ch = 'w' ∨ ch = '.')))))
    | _ => .error ()
  else .ok st

/-- The field loop of `SiLive.process_item`: for each
`(field, path)` mapping resolve the path with `get_nested_value`, join
list values (with mark-stripping for `description`), apply the link
fix-up, and store the result — storing `None` when the path did not
resolve.  An exception abandons the item (the partially built dict is
local and is discarded). -/
def processFields (item : Json) :
    List (String × String) → SiRecord → Except Unit SiRecord
  | [], acc => .ok acc
  | (field, path) :: rest, acc =>
      match get_nested_value item path with
      | .error e => .error e
      | .ok value =>
        let stored : Except Unit (Option Json) :=
          if field = "description" then
            match value with
            | some (.arr xs) => descJoin xs
            | v => .ok v
          else
            match value with
            | some (.arr xs) => .ok (some (.str (joinSpace (xs.map pyStr))))
            | v => .ok v
        match stored with
        | .error e => .error e
        | .ok st =>
            let fixed : Except Unit (Option Json) :=
              if field = "link" then linkFix st else .ok st
            match fixed with
            | .error e => .error e
            | .ok st2 => processFields item rest (acc ++ [(field, st2)])

/-- `SiLive.process_item(item)` over the configured field mappings. -/
def process_item (mappings : List (String × String)) (item : Json) :
    Except Unit SiRecord :=
  processFields item mappings []

/-- Python iteration (`for item in items`): lists yield their elements,
strings their characters, dicts their keys; `None`, numbers and booleans
are not iterable (`TypeError`, modelled as `none`). -/
def pyIterElems : Json → Option (List Json)
  | .arr xs => some xs
  | .str s => some (s.data.map (fun ch => Json.str (String.singleton ch)))
  | .obj fs => some (fs.map (fun kv => Json.str kv.1))
  | _ => none

/-- The item-source expression of `SiLive.scrape`:
when the top-level results key is present, the nested lookup of results;
otherwise the items key with an empty-list default — composed with
Python iterability.  `none` means
the subsequent `for` (or the `.get` on a non-dict payload) raises and the
iteration is handled by the `except` clause with no state mutated. -/
def siItemsIter (data : Json) : Option (List Json) :=
  match data with
  | .obj fs =>
      let itemsPy : Except Unit (Option Json) :=
        if fs.any (fun kv => kv.1 = "results") then
          get_nested_value (.obj fs) "results"
        else .ok (some ((jlookup "items" fs).getD (.arr [])))
      match itemsPy with
      | .error _ => none
      | .ok none => none
      | .ok (some v) => pyIterElems v
  | _ => none

/-- The append loop `for item in items: self.articles.append(...)`: each
processed item is appended unconditionally; an exception while processing
one item keeps the records appended before it (carried on the error). -/
def siItemsLoop (mappings : List (String × String)) :
    List Json → List SiRecord → Except (List SiRecord) (List SiRecord)
  | [], acc => .ok acc
  | it :: its, acc =>
      match process_item mappings it with
      | .error _ => .error acc
      | .ok r => siItemsLoop mappings its (acc ++ [r])

/-- The `pagination` block of a silive source configuration (`ptype` is
the Python key `type`). -/
structure SiPagination where
  ptype : String
  batch_size : Int
  total_field : String
  response_field : String
  initial_value : Int

/-- The parts of a silive source configuration that the embedded code
reads (endpoint, headers, query and delays only feed the abstracted
transport). -/
structure SiConfig where
  name : String
  field_mappings : List (String × String)
  pagination : SiPagination
  max_retries : Nat

/-- Mutable state of `SiLive.scrape`: accumulated articles, the current
pagination parameter (`None` ends the loop), the last stored
`total_results`, the consecutive-failure counter and the number of
`log_error` calls issued directly by the driver loop. -/
structure SiState where
  arts : List SiRecord
  cur : Option Json
  total : Option Json
  retries : Nat
  errs : Nat

/-- Outcome of one iteration of the `while` body: continue looping with a
new state, or break out of the loop. -/
inductive SiStep where
  | next (s : SiState)
  | stop (s : SiState)

/-- One fetch outcome for `SiLive.scrape`: `requests.get` raised, or an
HTTP response with a status code and body text. -/
inductive SiFetch where
  | exc
  | http (status : Nat) (text : String)

/-- The `except` clause of `SiLive.scrape`: log the error, bump the
consecutive-failure counter, and break once it exceeds `max_retries`. -/
def siExcept (cfg : SiConfig) (s : SiState) : SiStep :=
  let s2 : SiState := { s with errs := s.errs + 1, retries := s.retries + 1 }
  if s2.retries > cfg.max_retries then .stop s2 else .next s2

/-- `SiLive.handle_pagination` (invoked with the articles of the page
already appended to `s`): for offset pagination store the source-reported
total, advance the cursor by `batch_size`, and clear the cursor when it
reaches the total (booleans compare as 0/1 in Python; any other total
value makes the `>=` comparison raise after the mutations, handled by the
`except` clause); for cursor pagination adopt the response continuation
field.  The successful paths also perform the subsequent
`retries = 0`. -/
def handle_pagination (cfg : SiConfig) (s : SiState) (data : Json) : SiStep :=
  if cfg.pagination.ptype = "offset" then
    match get_nested_value data cfg.pagination.total_field with
    | .error _ => siExcept cfg s
    | .ok total2 =>
      match s.cur with
      | some (.num n) =>
          let c2 : Int := n + cfg.pagination.batch_size
          match total2 with
          | some (.num t) =>
              let cur2 : Option Json := if c2 ≥ t then none else some (.num c2)
              .next { s with cur := cur2, total := total2, retries := 0 }
          | some (.bool b) =>
              let t : Int := if b then 1 else 0
              let cur2 : Option Json := if c2 ≥ t then none else some (.num c2)
              .next { s with cur := cur2, total := total2, retries := 0 }
          | _ => siExcept cfg { s with cur := some (.num c2), total := total2 }
      | _ => siExcept cfg { s with total := total2 }
  else if cfg.pagination.ptype = "cursor" then
    match get_nested_value data cfg.pagination.response_field with
    | .error _ => siExcept cfg s
    | .ok cur2 => .next { s with cur := cur2, retries := 0 }
  else
    .next { s with retries := 0 }

/-- One iteration of the `while` body of `SiLive.scrape` on one fetch
outcome: a raised request goes to the `except` clause; a non-200 status
logs and breaks (after a rate-limit wait, a 429 retries the same cursor);
a body that does not decode to a truthy payload logs and breaks;
otherwise the items are processed and appended and the pagination state
advanced. -/
def siScrapeStep (cfg : SiConfig) (s : SiState) (o : SiFetch) : SiStep :=
  match o with
  | .exc => siExcept cfg s
  | .http status text =>
      if status ≠ 200 then
        let s2 : SiState := { s with errs := s.errs + 1 }
        if status = 429 then .next s2 else .stop s2
      else
        match parse_response cfg.name text with
        | none => .stop { s with errs := s.errs + 1 }
        | some data =>
            if ¬ pyTruthy data then .stop { s with errs := s.errs + 1 }
            else
              match siItemsIter data with
              | none => siExcept cfg s
              | some elems =>
                  match siItemsLoop cfg.field_mappings elems [] with
                  | .error partArts =>
                      siExcept cfg { s with arts := s.arts ++ partArts }
                  | .ok newArts =>
                      handle_pagination cfg
                        { s with arts := s.arts ++ newArts } data

/-- Result of `SiLive.scrape`: whether the loop finished (and
`save_results` flushed the state), the final state, and the number of
fetches issued. -/
structure SiResult where
  done : Bool
  state : SiState
  fetches : Nat

/-- The `while self.current_page_param is not None` loop of
`SiLive.scrape` over a fetch-outcome trace. -/
def siRun (cfg : SiConfig) : List SiFetch → SiState → SiResult
  | [], s => ⟨s.cur.isNone, s, 0⟩
  | o :: rest, s =>
      match s.cur with
      | none => ⟨true, s, 0⟩
      | some _ =>
          match siScrapeStep cfg s o with
          | .stop s2 => ⟨true, s2, 1⟩
          | .next s2 =>
              let r := siRun cfg rest s2
              { r with fetches := r.fetches + 1 }

/-- `SiLive.scrape` from the initial state (`initial_value` cursor, empty
accumulators). -/
def siScrape (cfg : SiConfig) (trace : List SiFetch) : SiResult :=
  siRun cfg trace ⟨[], some (.num cfg.pagination.initial_value), none, 0, 0⟩

/-! ## scrape_article.py (parallel article-body fetcher) -/

/-- The fields of one input article that `fetch_article` reads and
spreads into its result (`{**article, ...}`). -/
structure SAArticle where
  url : String
  title : String
  date : Option String
deriving DecidableEq

/-- Abstract outcome of the network-and-parse part of `fetch_article` for
one article: the downloaded article text with its optionally parsed
publication date, or the message of a raised exception.  The fetch is
external I/O; the embedding is parameterized by this oracle. -/
inductive SAOutcome where
  | success (text : String) (pubDate : Option String)
  | failure (msg : String)

/-- The result dict of `fetch_article`: the spread input article plus
`text`, `date` (the parsed publication date when present, else the
date of the input) and, on the exception path, an empty text plus an
error
entry. -/
structure SAResult where
  base : SAArticle
  text : String
  date : Option String
  err : Option String
deriving DecidableEq

/-- `scrape_article.fetch_article`: always returns exactly one result per
input article — a success dict or a per-URL error dict, never an
exception. -/
def fetch_article (oracle : SAArticle → SAOutcome) (a : SAArticle) :
    SAResult :=
  match oracle a with
  | .success txt pd =>
      ⟨a, txt, (match pd with | some d => some d | none => a.date), none⟩
  | .failure msg => ⟨a, "", a.date, some msg⟩

/-- The batch slicing of `process_articles`:
`tasks[i:i+concurrency]` for `i in range(0, len(tasks), concurrency)`.
(Python raises `ValueError` on step 0; the claims assume a positive
concurrency, as the CLI default guarantees.) -/
def sliceChunks (c : Nat) : List α → List (List α)
  | [] => []
  | x :: xs => (x :: xs).take c :: sliceChunks c (xs.drop (c - 1))
termination_by l => l.length
decreasing_by simp only [List.length_drop, List.length_cons]; omega

/-- `scrape_article.process_articles`: build one task per input article
(in order), await them in batches of `concurrency`, and collect the
result lists of the batches (each gather call preserves the order of
its batch). -/
def process_articles (oracle : SAArticle → SAOutcome) (concurrency : Nat)
    (articles : List SAArticle) : List (List SAResult) :=
  sliceChunks concurrency (articles.map (fetch_article oracle))

/-! ## Theorems -/

/-- Helper: from any state whose failure counter is `r` with `r + k`
equal to the retry budget, `k + 1` consecutive failed fetches terminate a
cursor-token crawl as `failed`, leaving the accumulated records untouched. -/
theorem cursorRun_consecutive_failures (process : δ → List α)
    (contOf : δ → Option String) (mr : Nat) :
    ∀ (k : Nat) (s : CState α) (rest : List (Option δ)),
      s.retry + k = mr →
      cursorRun process contOf mr (List.replicate (k+1) none ++ rest) s =
        ⟨.failed, s.arts, k+1⟩ := by
  intro k
  induction k with
  | zero =>
      intro s rest h
      have : ¬ s.retry < mr := by omega
      simp [cursorRun, this]
  | succ n ih =>
      intro s rest h
      have hlt : s.retry < mr := by omega
      have hrec := ih { s with retry := s.retry + 1 } rest (by simp; omega)
      simp [List.replicate_succ, cursorRun, hlt] at hrec ⊢
      simp [hrec]

/-- Helper: the page-number analogue of `cursorRun_consecutive_failures`,
for a state whose page is still within the page cap. -/
theorem pageRun_consecutive_failures (mp mr : Nat) :
    ∀ (k : Nat) (s : PState α) (rest : List (Option (List α))),
      s.retry + k = mr → s.page ≤ mp →
      pageRun mp mr (List.replicate (k+1) none ++ rest) s =
        ⟨.failed, s.arts, List.replicate (k+1) s.page, k+1⟩ := by
  intro k
  induction k with
  | zero =>
      intro s rest h hp
      have h1 : ¬ s.retry < mr := by omega
      have h2 : ¬ s.page > mp := by omega
      simp [cursorRun, pageRun, h1, h2]
  | succ n ih =>
      intro s rest h hp
      have hlt : s.retry < mr := by omega
      have h2 : ¬ s.page > mp := by omega
      have hrec := ih { s with retry := s.retry + 1 } rest (by simp; omega)
        (by simpa using hp)
      simp [List.replicate_succ, pageRun, hlt, h2] at hrec ⊢
      simp [hrec]

/-- Helper: on a transport trace with no failed fetches, the sequence of
page numbers a page-number crawl fetches is `page, page+1, page+2, ...`
(an arithmetic range with step 1). -/
theorem pageRun_pages_range (mp mr : Nat) :
    ∀ (trace : List (Option (List α))) (s : PState α),
      (∀ e ∈ trace, e ≠ none) →
      ∃ k, (pageRun mp mr trace s).pages = List.range' s.page k 1 := by
  intro trace
  induction trace with
  | nil =>
      intro s _
      refine ⟨0, ?_⟩
      unfold pageRun
      split <;> simp
  | cons o rest ih =>
      intro s h
      have ho : o ≠ none := h o (by simp)
      obtain ⟨as, rfl⟩ : ∃ as, o = some as := by
        cases o with
        | none => exact absurd rfl ho
        | some as => exact ⟨as, rfl⟩
      by_cases hmp : s.page > mp
      · exact ⟨0, by simp [pageRun, hmp]⟩
      · by_cases he : as.isEmpty
        · exact ⟨1, by simp [pageRun, hmp, he]⟩
        · obtain ⟨k, hk⟩ := ih ⟨s.arts ++ as, s.page + 1, 0⟩
            (fun e he2 => h e (by simp [he2]))
          refine ⟨k+1, ?_⟩
          rw [List.range'_succ]
          simp [pageRun, hmp, he]
          simpa using hk

/-- Claim C1: in both cursor-token crawls (the_city and news_day), whenever
a successfully fetched page yields a continuation token that is falsy
(absent or empty) or equal to the token used to request that page, the
driver breaks out of its loop immediately — terminal kind `exhausted`,
exactly this one fetch issued, the rest of the transport trace never
consulted — regardless of the records on that page. -/
theorem claim1_cursor_token_repeat_halts
    (d : TCData) (rest : List (Option TCData)) (s : CState TCItem)
    (hd : strTruthy d.page_handle = false ∨ d.page_handle = s.handle)
    (e : NDData) (rest2 : List (Option NDData)) (t : CState NDArticle)
    (he : strTruthy e.cursor = false ∨ e.cursor = t.handle) :
    tcRun (some d :: rest) s = ⟨.exhausted, s.arts ++ tcProcessData d, 1⟩ ∧
    ndRun (some e :: rest2) t = ⟨.exhausted, t.arts ++ ndProcessData e, 1⟩ := by
  constructor
  · rcases hd with hd | hd <;> simp [tcRun, cursorRun, hd]
  · rcases he with he | he <;> simp [ndRun, cursorRun, he]

/-- Witness for C1 at a concrete input: a first page carrying one record
and an empty continuation token terminates both drivers after one fetch. -/
theorem claim1_cursor_token_repeat_halts_witness :
    tcRun [some ⟨some [⟨some "d", some "t", some "l"⟩], some ""⟩, none]
        ⟨[], none, 0⟩ =
      ⟨.exhausted, [⟨some "d", some "t", some "l"⟩], 1⟩ ∧
    ndRun [some ⟨some [], none⟩] ⟨[], some "tok", 0⟩ =
      ⟨.exhausted, [], 1⟩ := by
  have h := claim1_cursor_token_repeat_halts
    ⟨some [⟨some "d", some "t", some "l"⟩], some ""⟩ [none] ⟨[], none, 0⟩
    (Or.inl rfl)
    ⟨some [], none⟩ [] ⟨[], some "tok", 0⟩ (Or.inl rfl)
  simpa [tcProcessData, ndProcessData, strTruthy] using h

/-- Claim C2: a page-number crawl starting at page 1 whose transport
returns two non-empty pages and then an empty page performs exactly three
fetches (of pages 1, 2, 3), terminates as `exhausted`, and flushes exactly
the records of the first two pages — for any page cap of at least 3 (the
sources parse a cap from the first page or fall back to a generous
default) and whatever the trace might have contained afterwards. -/
theorem claim2_page_number_three_fetches
    (a1 a2 : List α) (rest : List (Option (List α))) (maxPages : Nat)
    (h1 : a1 ≠ []) (h2 : a2 ≠ []) (hmp : 3 ≤ maxPages) :
    pageRun maxPages 3 (some a1 :: some a2 :: some [] :: rest) ⟨[], 1, 0⟩ =
      ⟨.exhausted, a1 ++ a2, [1, 2, 3], 3⟩ := by
  have n1 : ¬ (1 > maxPages) := by omega
  have n2 : ¬ (2 > maxPages) := by omega
  have n3 : ¬ (3 > maxPages) := by omega
  simp [pageRun, n1, n2, n3, h1, h2]

/-- Witness for C2 at a concrete input: two singleton pages, an empty
page, cap 150 (the bx_times fallback). -/
theorem claim2_page_number_three_fetches_witness :
    pageRun 150 3 [some [10], some [20], some []] (⟨[], 1, 0⟩ : PState Nat) =
      ⟨.exhausted, [10, 20], [1, 2, 3], 3⟩ := by
  have h := claim2_page_number_three_fetches [10] [20] ([] : List (Option (List Nat)))
    150 (by decide) (by decide) (by decide)
  simpa using h

/-- Claim C4 counterexample: with one transient fetch failure on page 2
the crawl fetches the page sequence `[1, 2, 2, 3]` — page 2 is requested
twice (the retry re-fetches the same page number), so the sequence of
page numbers actually fetched is neither strictly increasing nor free of
repetitions. -/
theorem claim4_counterexample :
    pageRun 150 3 [some [10], none, some [20], some []]
        (⟨[], 1, 0⟩ : PState Nat) =
      ⟨.exhausted, [10, 20], [1, 2, 2, 3], 4⟩ ∧
    ¬ (pageRun 150 3 [some [10], none, some [20], some []]
        (⟨[], 1, 0⟩ : PState Nat)).pages.Nodup := by
  constructor
  · rfl
  · decide

/-- Claim C4 (amended): on a crawl whose fetches all succeed, the page
numbers fetched by the pagination loop are strictly increasing by 1 from
the initial loop page (an arithmetic range with step 1) and repetition
free; over the whole crawl, each source first issues one cap-probe fetch
(chicago_tribune page 1, re-fetched by the loop; bx_times page 2, out of
order before the loop starts at 1), so the whole-crawl fetch sequence is
that probe page followed by the consecutive loop pages and can repeat a
page number even without any failure (final conjunct); with failures a
page is additionally re-fetched on retry (see the counterexample). -/
theorem claim4_amended_pages_increasing :
    (∀ (mp mr : Nat) (trace : List (Option (List α))) (s : PState α),
      (∀ e ∈ trace, e ≠ none) →
      ∃ k, (pageRun mp mr trace s).pages = List.range' s.page k 1 ∧
        (pageRun mp mr trace s).pages.Nodup) ∧
    (∀ (tr : Option Nat) (trace : List (Option (List α))),
      (∀ e ∈ trace, e ≠ none) →
      ∃ k, tribuneCrawlPages (some tr) trace = 1 :: List.range' 1 k 1) ∧
    (∀ (tr : Option Nat) (trace : List (Option (List α))),
      (∀ e ∈ trace, e ≠ none) →
      ∃ k, bxCrawlPages (some tr) trace = 2 :: List.range' 1 k 1) ∧
    ¬ (tribuneCrawlPages (some none)
        [some [0], some ([] : List Nat)]).Nodup := by
  refine ⟨?_, ?_, ?_, by decide⟩
  · intro mp mr trace s h
    obtain ⟨k, hk⟩ := pageRun_pages_range mp mr trace s h
    exact ⟨k, hk, hk ▸ List.nodup_range' s.page k⟩
  · intro tr trace h
    obtain ⟨k, hk⟩ := pageRun_pages_range _ 3 trace ⟨[], 1, 0⟩ h
    exact ⟨k, by simp only [tribuneCrawlPages]; rw [hk]⟩
  · intro tr trace h
    obtain ⟨k, hk⟩ := pageRun_pages_range _ 3 trace ⟨[], 1, 0⟩ h
    exact ⟨k, by simp only [bxCrawlPages]; rw [hk]⟩

/-- Witness for the amended C4 at a concrete failure-free trace, for the
loop sequence and for both whole-crawl sequences. -/
theorem claim4_amended_pages_increasing_witness :
    (∃ k, (pageRun 150 3 [some [5], some []] (⟨[], 1, 0⟩ : PState Nat)).pages =
        List.range' 1 k 1 ∧
      (pageRun 150 3 [some [5], some []]
        (⟨[], 1, 0⟩ : PState Nat)).pages.Nodup) ∧
    (∃ k, tribuneCrawlPages (some (some 30)) [some [5], some ([] : List Nat)] =
        1 :: List.range' 1 k 1) ∧
    (∃ k, bxCrawlPages (some none) [some [5], some ([] : List Nat)] =
        2 :: List.range' 1 k 1) :=
  ⟨(claim4_amended_pages_increasing (α := Nat)).1 150 3 [some [5], some []]
      ⟨[], 1, 0⟩ (by simp),
   (claim4_amended_pages_increasing (α := Nat)).2.1 (some 30)
      [some [5], some []] (by simp),
   (claim4_amended_pages_increasing (α := Nat)).2.2.1 none
      [some [5], some []] (by simp)⟩

/-- Claim C8: in the cursor-token driver (the_city) and the page-number
driver (bx_times / chicago_tribune), once the consecutive-failure count
exceeds the retry budget the crawl stops with terminal kind `failed`, and
the flushed record list is exactly the accumulated record list of the
session —
whatever had been collected from earlier successful pages is preserved.
The state `s` (resp. `t`) is any state reachable after successful pages,
whose failure counter has therefore been reset to 0. -/
theorem claim8_terminal_failed_keeps_records
    (s : CState TCItem) (rest : List (Option TCData)) (hs : s.retry = 0)
    (mp mr : Nat) (t : PState α) (rest2 : List (Option (List α)))
    (ht : t.retry = 0) (hpage : t.page ≤ mp) :
    tcRun (List.replicate 4 none ++ rest) s = ⟨.failed, s.arts, 4⟩ ∧
    pageRun mp mr (List.replicate (mr+1) none ++ rest2) t =
      ⟨.failed, t.arts, List.replicate (mr+1) t.page, mr+1⟩ := by
  constructor
  · exact cursorRun_consecutive_failures tcProcessData
      (fun d => d.page_handle) 3 3 s rest (by omega)
  · exact pageRun_consecutive_failures mp mr mr t rest2 (by omega) hpage

/-- Witness for C8 at a concrete input: one successful page already
accumulated, then four consecutive failures. -/
theorem claim8_terminal_failed_keeps_records_witness :
    tcRun (List.replicate 4 none ++ [])
        ⟨[⟨some "d", some "t", some "l"⟩], some "h1", 0⟩ =
      ⟨.failed, [⟨some "d", some "t", some "l"⟩], 4⟩ ∧
    pageRun 150 3 (List.replicate 4 none ++ [])
      (⟨[7], 2, 0⟩ : PState Nat) =
      ⟨.failed, [7], List.replicate 4 2, 4⟩ :=
  claim8_terminal_failed_keeps_records
    ⟨[⟨some "d", some "t", some "l"⟩], some "h1", 0⟩ [] rfl
    150 3 ⟨[7], 2, 0⟩ [] rfl (by decide)

/-- Helper: once the pagination parameter is `None`, the loop body of
`SiLive.scrape` never runs again — no fetch is issued no matter what the
transport would have returned. -/
theorem siRun_cur_none (cfg : SiConfig) (trace : List SiFetch) (s : SiState)
    (h : s.cur = none) : siRun cfg trace s = ⟨true, s, 0⟩ := by
  cases trace with
  | nil => simp [siRun, h]
  | cons o rest => simp [siRun, h]

/-- Claim C3: in the silive offset crawl, a successful page (HTTP 200,
truthy decoded payload, iterable items, integral source-reported total)
advances the offset cursor by the configured batch size and, when the
updated offset is at least the reported total, clears the cursor so the
loop halts with no further page requested: the run ends after exactly
this one fetch, for every continuation of the transport trace. -/
theorem claim3_offset_reaches_total_halts
    (cfg : SiConfig) (s : SiState) (n t : Int) (text : String) (data : Json)
    (rest : List SiFetch) (elems : List Json) (newArts : List SiRecord)
    (hty : cfg.pagination.ptype = "offset")
    (hcur : s.cur = some (.num n))
    (hparse : parse_response cfg.name text = some data)
    (htruthy : pyTruthy data = true)
    (hitems : siItemsIter data = some elems)
    (hloop : siItemsLoop cfg.field_mappings elems [] = .ok newArts)
    (htot : get_nested_value data cfg.pagination.total_field =
      .ok (some (.num t)))
    (hge : n + cfg.pagination.batch_size ≥ t) :
    siRun cfg (.http 200 text :: rest) s =
      ⟨true, ⟨s.arts ++ newArts, none, some (.num t), 0, s.errs⟩, 1⟩ := by
  have hstep : siScrapeStep cfg s (.http 200 text) =
      .next ⟨s.arts ++ newArts, none, some (.num t), 0, s.errs⟩ := by
    simp [siScrapeStep, hparse, htruthy, hitems, hloop, handle_pagination,
      hty, hcur, htot, hge]
  simp [siRun, hcur, hstep, siRun_cur_none]

/-- Witness for C3 at a concrete input: batch size 10, offset 0, a page
with no items reporting total 5; `0 + 10 ≥ 5` halts the crawl. -/
theorem claim3_offset_reaches_total_halts_witness :
    siRun ⟨"silive", [("title", "title")], ⟨"offset", 10, "total", "nx", 0⟩, 3⟩
        [.http 200 "\x7b\"items\": [], \"total\": 5\x7d", .exc]
        ⟨[], some (.num 0), none, 0, 0⟩ =
      ⟨true, ⟨[], none, some (.num 5), 0, 0⟩, 1⟩ := by
  have h := claim3_offset_reaches_total_halts
    ⟨"silive", [("title", "title")], ⟨"offset", 10, "total", "nx", 0⟩, 3⟩
    ⟨[], some (.num 0), none, 0, 0⟩ 0 5
    "\x7b\"items\": [], \"total\": 5\x7d"
    (.obj [("items", .arr []), ("total", .num 5)]) [.exc] [] []
    rfl rfl rfl rfl rfl rfl rfl (by decide)
  simpa using h

/-- Claim C5: `SiLive.parse_response` first attempts a direct strict JSON
parse (a body that parses directly is returned as such), and a body on
which the direct parse fails but whose text matches the embedded-script
pattern `JSON.parse(...)` is handled by the shape-3 recovery — the inner
string literal is extracted, the known escapes are un-escaped, and the
result is parsed as JSON with `strict=False` — never reported as a plain
shape-2 decode failure. -/
theorem claim5_decode_fallback_order :
    (∀ (name text : String) (v : Json),
      json_loads true text = some v → parse_response name text = some v) ∧
    (∀ (text inner : String),
      json_loads true text = none → searchJsonParse text.data = some inner →
      parse_response "silive" text = json_loads false (siUnescape inner)) := by
  constructor
  · intro name text v h
    simp [parse_response, h]
  · intro text inner h1 h2
    simp [parse_response, h1, h2]

/-- Witness for C5 at concrete inputs: a direct JSON body, and an
embedded-script body recovered through the shape-3 path. -/
theorem claim5_decode_fallback_order_witness :
    parse_response "silive" "1" = some (.num 1) ∧
    parse_response "silive" "JSON.parse(\x27[1]\x27)" =
      json_loads false (siUnescape "[1]") :=
  ⟨claim5_decode_fallback_order.1 "silive" "1" (.num 1) rfl,
   claim5_decode_fallback_order.2 "JSON.parse(\x27[1]\x27)" "[1]" rfl rfl⟩

/-- Claim C6: the exact response body of the spec example — a
JSON.parse script wrapper whose single-quoted literal holds an object
associating key a with 1 — decodes to that JSON object (key a mapped to
the number 1), not to a decode failure. -/
theorem claim6_embedded_literal_decodes :
    parse_response "silive" "JSON.parse(\x27\x7b\"a\": 1\x7d\x27)" =
      some (.obj [("a", .num 1)]) := by rfl

/-- Claim C7 counterexample: in the silive scraper an item missing its
`link` mapping still contributes a record — `scrape` appends every
processed item unconditionally, so the flushed articles contain a record
whose `link` field is Python `None` (no all-fields check as in
`process_data` of the_city). -/
theorem claim7_counterexample :
    (siRun ⟨"silive",
        [("title", "title"), ("link", "link"), ("date", "date")],
        ⟨"offset", 10, "total", "nx", 0⟩, 3⟩
      [.http 200
        "\x7b\"items\": [\x7b\"title\": \"T\", \"date\": \"D\"\x7d], \"total\": 1\x7d"]
      ⟨[], some (.num 0), none, 0, 0⟩).state.arts =
      [[("title", some (.str "T")), ("link", none),
        ("date", some (.str "D"))]] := by rfl

/-- Claim C7 (amended): in both cursor-token drivers the acceptance rule
holds — a record enters the output of the_city only when date, title and
link all resolved to truthy values, and the output of news_day only when
date, title, link and text did; an item whose link is absent or empty
contributes no record at all in either driver.  The silive scraper
however appends each processed item unconditionally, so there records
with `None` fields are flushed (see the counterexample). -/
theorem claim7_amended_all_fields_required :
    (∀ (d : TCData) (r : TCItem), r ∈ tcProcessData d →
      strTruthy r.date ∧ strTruthy r.title ∧ strTruthy r.link) ∧
    (∀ (d : TCData) (r : TCItem), strTruthy r.link = false →
      r ∉ tcProcessData d) ∧
    (∀ (d : NDData) (a : NDArticle), a ∈ ndProcessData d →
      strTruthy a.date ∧ strTruthy a.title ∧ strTruthy a.link ∧
        strTruthy a.text) ∧
    (∀ (d : NDData) (a : NDArticle), strTruthy a.link = false →
      a ∉ ndProcessData d) := by
  have main : ∀ (d : TCData) (r : TCItem), r ∈ tcProcessData d →
      strTruthy r.date ∧ strTruthy r.title ∧ strTruthy r.link := by
    intro d r hm
    unfold tcProcessData at hm
    cases hres : d.results with
    | none => rw [hres] at hm; simp at hm
    | some rs =>
        rw [hres] at hm
        rw [List.mem_filterMap] at hm
        obtain ⟨a, _, hf⟩ := hm
        by_cases hc : strTruthy a.date && strTruthy a.title && strTruthy a.link
        · rw [if_pos hc] at hf
          cases hf
          simpa [Bool.and_eq_true, and_assoc] using hc
        · rw [if_neg hc] at hf
          cases hf
  have mainND : ∀ (d : NDData) (a : NDArticle), a ∈ ndProcessData d →
      strTruthy a.date ∧ strTruthy a.title ∧ strTruthy a.link ∧
        strTruthy a.text := by
    intro d a hm
    unfold ndProcessData at hm
    cases hres : d.hits with
    | none => rw [hres] at hm; simp at hm
    | some hs =>
        rw [hres] at hm
        rw [List.mem_filterMap] at hm
        obtain ⟨h0, _, hf⟩ := hm
        dsimp only at hf
        by_cases hc : strTruthy h0.publishedDate &&
            strTruthy (if strTruthy h0.headline then h0.headline
              else h0.title) &&
            strTruthy h0.url && strTruthy h0.body
        · rw [if_pos hc] at hf
          cases hf
          simpa [Bool.and_eq_true, and_assoc] using hc
        · rw [if_neg hc] at hf
          cases hf
  refine ⟨main, fun d r hl hmem => ?_, mainND, fun d a hl hmem => ?_⟩
  · have h := (main d r hmem).2.2
    rw [hl] at h
    cases h
  · have h := (mainND d a hmem).2.2.1
    rw [hl] at h
    cases h

/-- Witness for the amended C7 at a concrete input. -/
theorem claim7_amended_all_fields_required_witness :
    (strTruthy (some "d") ∧ strTruthy (some "t") ∧ strTruthy (some "l")) ∧
    (⟨some "d", some "t", none⟩ : TCItem) ∉
      tcProcessData ⟨some [⟨some "d", some "t", none⟩], none⟩ ∧
    (strTruthy (some "pd") ∧ strTruthy (some "hl") ∧ strTruthy (some "u") ∧
      strTruthy (some "b")) ∧
    (⟨some "pd", some "hl", none, some "b"⟩ : NDArticle) ∉
      ndProcessData
        ⟨some [⟨some "pd", some "hl", some "tt", none, some "b"⟩], none⟩ :=
  ⟨claim7_amended_all_fields_required.1
      ⟨some [⟨some "d", some "t", some "l"⟩], none⟩
      ⟨some "d", some "t", some "l"⟩ (by decide),
   claim7_amended_all_fields_required.2.1
      ⟨some [⟨some "d", some "t", none⟩], none⟩
      ⟨some "d", some "t", none⟩ rfl,
   claim7_amended_all_fields_required.2.2.1
      ⟨some [⟨some "pd", some "hl", some "tt", some "u", some "b"⟩], none⟩
      ⟨some "pd", some "hl", some "u", some "b"⟩ (by decide),
   claim7_amended_all_fields_required.2.2.2
      ⟨some [⟨some "pd", some "hl", some "tt", none, some "b"⟩], none⟩
      ⟨some "pd", some "hl", none, some "b"⟩ rfl⟩

/-- Helper: for a positive batch size, concatenating the slices
`l[i:i+c]` for `i in range(0, len(l), c)` gives back `l`. -/
theorem sliceChunks_flatten (c : Nat) (hc : 0 < c) :
    ∀ (n : Nat) (l : List α), l.length ≤ n →
      (sliceChunks c l).flatten = l := by
  intro n
  induction n with
  | zero =>
      intro l h
      have : l = [] := List.length_eq_zero.mp (Nat.le_zero.mp h)
      subst this
      simp [sliceChunks]
  | succ m ih =>
      intro l h
      cases l with
      | nil => simp [sliceChunks]
      | cons x xs =>
          rw [sliceChunks]
          rw [List.flatten_cons]
          rw [ih (xs.drop (c - 1))
            (by simp only [List.length_drop]
                simp only [List.length_cons] at h
                omega)]
          obtain ⟨k, rfl⟩ : ∃ k, c = k + 1 := ⟨c - 1, by omega⟩
          simp [List.take_cons]

/-- Claim C9: for every input list, the collected (flattened) result of a
full `process_articles` run is exactly the per-article outcome list: it
has exactly one element per input article, in input order, and each
outcome is either a success dict (no `error` key) or a per-URL error dict
(empty text, the date of the article itself, an error message). -/
theorem claim9_one_outcome_per_input
    (oracle : SAArticle → SAOutcome) (c : Nat) (l : List SAArticle)
    (hc : 0 < c) :
    (process_articles oracle c l).flatten = l.map (fetch_article oracle) ∧
    (process_articles oracle c l).flatten.length = l.length ∧
    (∀ a ∈ l, (∃ txt d, fetch_article oracle a = ⟨a, txt, d, none⟩) ∨
      (∃ msg, fetch_article oracle a = ⟨a, "", a.date, some msg⟩)) := by
  have hf : (process_articles oracle c l).flatten =
      l.map (fetch_article oracle) :=
    sliceChunks_flatten c hc (l.map (fetch_article oracle)).length _ le_rfl
  refine ⟨hf, by simp [hf], ?_⟩
  intro a _
  cases ho : oracle a with
  | success txt pd =>
      cases pd with
      | none => exact Or.inl ⟨txt, a.date, by simp [fetch_article, ho]⟩
      | some d => exact Or.inl ⟨txt, some d, by simp [fetch_article, ho]⟩
  | failure msg => exact Or.inr ⟨msg, by simp [fetch_article, ho]⟩

/-- Witness for C9 at a concrete input: three articles fetched with
concurrency 2 (one failing) yield exactly three outcomes. -/
theorem claim9_one_outcome_per_input_witness :
    (process_articles
      (fun a => if a.url = "u1" then SAOutcome.success "body" none
                else SAOutcome.failure "boom") 2
      [⟨"u1", "t1", none⟩, ⟨"u2", "t2", some "d2"⟩, ⟨"u3", "t3", none⟩]
      ).flatten.length = 3 := by
  have h := claim9_one_outcome_per_input
    (fun a => if a.url = "u1" then SAOutcome.success "body" none
              else SAOutcome.failure "boom") 2
    [⟨"u1", "t1", none⟩, ⟨"u2", "t2", some "d2"⟩, ⟨"u3", "t3", none⟩]
    (by decide)
  simpa using h.2.1

/-- Claim C10 counterexample: `get_nested_value` is not total over all
path strings — the superscript-two key (code point 178) passes the
str.isdigit guard but has no decimal value, so the Python int conversion
raises a ValueError out of the walk instead of returning a value or
`None`. -/
theorem claim10_counterexample :
    get_nested_value (.obj [("a", .arr [.num 1, .num 2])]) "a.\xB2" =
      .error () := by rfl

/-- Claim C10 (amended): `get_nested_value` walks the dot-separated path
and returns the reached value or `None` — a non-dict, non-list
intermediate yields `None`, a non-digit key applied to a list yields
`None`, an out-of-range decimal index yields `None`, and decimal-digit
keys (also non-ASCII ones, last conjunct) index lists by their decimal
value — except that a list key in the str.isdigit class without a
decimal interpretation raises a ValueError, so the function is total
only over paths avoiding such keys at list positions. -/
theorem claim10_get_nested_value_amended :
    (∀ (item : Json) (path : String),
      get_nested_value item path = getNested (splitDot [] path.data) item) ∧
    (∀ (k : String) (ks : List String),
      getNested (k :: ks) .null = .ok none) ∧
    (∀ (k : String) (ks : List String) (b : Bool),
      getNested (k :: ks) (.bool b) = .ok none) ∧
    (∀ (k : String) (ks : List String) (n : Int),
      getNested (k :: ks) (.num n) = .ok none) ∧
    (∀ (k : String) (ks : List String) (s : String),
      getNested (k :: ks) (.str s) = .ok none) ∧
    (∀ (k : String) (ks : List String) (xs : List Json),
      isdigitStr k = false → getNested (k :: ks) (.arr xs) = .ok none) ∧
    (∀ (k : String) (ks : List String) (xs : List Json) (i : Nat),
      isdigitStr k = true → intOfKey k = some i → xs.length ≤ i →
      getNested (k :: ks) (.arr xs) = .ok none) ∧
    (∀ (k : String) (ks : List String) (xs : List Json),
      isdigitStr k = true → intOfKey k = none →
      getNested (k :: ks) (.arr xs) = .error ()) ∧
    (get_nested_value (.obj [("a", .arr [.num 10, .num 20, .num 30, .num 40])])
      "a.\u0663" = .ok (some (.num 40))) := by
  refine ⟨fun item path => rfl, fun k ks => rfl, fun k ks b => rfl,
    fun k ks n => rfl, fun k ks s => rfl, ?_, ?_, ?_, by rfl⟩
  · intro k ks xs h
    simp [getNested, h]
  · intro k ks xs i hd hio hlen
    have hg : xs[i]? = none := List.getElem?_eq_none hlen
    simp [getNested, hd, hio, hg]
  · intro k ks xs hd hio
    simp [getNested, hd, hio]

/-- Witness for the amended C10 at concrete inputs: a non-digit key on a
list and an out-of-range decimal index return `None`, and a digit-class
key without decimal value raises. -/
theorem claim10_get_nested_value_amended_witness :
    getNested ["x"] (.arr []) = .ok none ∧
    getNested ["3"] (.arr [.num 1]) = .ok none ∧
    getNested ["\xB2"] (.arr [.num 1]) = .error () :=
  ⟨claim10_get_nested_value_amended.2.2.2.2.2.1 "x" [] [] rfl,
   claim10_get_nested_value_amended.2.2.2.2.2.2.1 "3" [] [.num 1] 3 rfl rfl
     (by decide),
   claim10_get_nested_value_amended.2.2.2.2.2.2.2.1 "\xB2" [] [.num 1]
     rfl rfl⟩

end SpecProof
